import Mathlib

/-!
Shallow embedding of the issue/subtask aggregation core of the `jira` CLI
(`src/client.rs`, `src/macros.rs`, `src/users.rs`).

Modelling conventions:

* `goji::Issue` accessor results are embedded as record fields:
  `issue.parent().map(|v| v.key)` becomes `parent_key`,
  `issue.assignee().map(|v| v.display_name)` becomes `assignee`,
  `issue.issue_type()` becomes `issue_type`, `issue.status().map(|v| v.name)`
  becomes `status`, `issue.timetracking()` becomes `timetracking`.
* The Rust `BTreeMap<String, Vec<Issue>>` built by `Client::subtasks` is
  embedded as an association list with unique keys.  The code only uses
  `get`, `get_mut(..).push` and `insert` on it for the properties considered
  here; key-iteration order is never consulted, so the sorted-key placement
  of `BTreeMap::insert` is immaterial and entries are appended at the end.
* The `u32` counter and `f64` accumulators of `users.rs` are embedded as
  `Nat`: every recorded value is a `u64` seconds count and the code only adds
  them, so exact arithmetic is the intended semantics; machine-integer
  overflow and floating-point rounding are outside the properties considered
  here.
* Rust `String` is embedded as Lean `String`.  The `format!("{:.w$}")`
  precision truncation counts characters and is embedded as a take on the
  character list, while `String::len()` counts UTF-8 bytes and is embedded
  as `String.utf8ByteSize`; the two coincide only on ASCII data, and the
  truncation helper uses each exactly where the source does.
-/

namespace Jira

/-- Issue-type metadata (`goji::IssueType` as used by the code): the display
name and the subtask flag. -/
structure IssueType where
  name : String
  subtask : Bool
deriving DecidableEq

/-- Time-tracking record (`goji::TimeTracking`), restricted to the seconds
fields the aggregation core reads; each is independently optional. -/
structure TimeTracking where
  original_estimate_seconds : Option Nat
  remaining_estimate_seconds : Option Nat
  time_spent_seconds : Option Nat
deriving DecidableEq

/-- The issue record, restricted to the fields the aggregation core reads. -/
structure Issue where
  key : String
  parent_key : Option String
  issue_type : Option IssueType
  assignee : Option String
  status : Option String
  summary : Option String
  timetracking : Option TimeTracking
deriving DecidableEq

/-- Effective assignee: `issue.assignee().map(|v| v.display_name)
.unwrap_or("Unassigned".to_owned())` (client.rs, several sites). -/
def effectiveAssignee (i : Issue) : String :=
  i.assignee.getD "Unassigned"

/-- Subtask classification: `issue.issue_type().map(|v| v.subtask)
.unwrap_or(false)` (client.rs line 372). -/
def isSubtaskFlag (i : Issue) : Bool :=
  (i.issue_type.map IssueType.subtask).getD false

/-- The subtask map `BTreeMap<String, Vec<Issue>>`, as an association list. -/
abbrev SMap := List (String × List Issue)

/-- Embedding of `BTreeMap::get`. -/
def smapGet : SMap → String → Option (List Issue)
  | [], _ => none
  | (k, v) :: rest, p => if k = p then some v else smapGet rest p

/-- The `match subtasks.get_mut(&parent) { Some(subtasks) =>
subtasks.push(issue), None => { subtasks.insert(parent, vec![issue]); } }`
update of client.rs lines 390-395: push onto an existing entry, or create a
fresh singleton entry. -/
def smapPush : SMap → String → Issue → SMap
  | [], k, i => [(k, [i])]
  | (k', v) :: rest, k, i =>
    if k' = k then (k', v ++ [i]) :: rest else (k', v) :: smapPush rest k i

/-- One iteration of the `for issue in issues` loop of `Client::subtasks`
(client.rs lines 371-400), acting on the accumulated
`(tasks, subtasks)` state. -/
def subtasksStep (assignee issue_key : Option String)
    (st : List Issue × SMap) (issue : Issue) : List Issue × SMap :=
  match isSubtaskFlag issue with
  | true =>
    match issue.parent_key with
    | some parent =>
      if (match assignee with
          | some a => decide (effectiveAssignee issue ≠ a)
          | none => false) then st
      else if (match issue_key with
          | some key => decide (issue.key ≠ key) && decide (parent ≠ key)
          | none => false) then st
      else (st.1, smapPush st.2 parent issue)
    | none => st
  | false => (st.1 ++ [issue], st.2)

/-- Embedding of `Client::subtasks` (client.rs lines 362-403): partition a flat issue list
into top-level issues and a parent-key-indexed subtask map, applying the
assignee and issue-key filters to subtasks only. -/
def subtasks (issues : List Issue) (assignee issue_key : Option String) :
    List Issue × SMap :=
  issues.foldl (subtasksStep assignee issue_key) ([], [])

/-- The retention predicate the two `continue`s of `Client::subtasks` encode
for a subtask whose parent key is `parent`: kept iff the assignee filter (if
any) matches the effective assignee and the issue-key filter (if any) matches
the subtask's own key or its parent key. -/
def subtaskKept (assignee issue_key : Option String) (parent : String)
    (i : Issue) : Bool :=
  !(match assignee with
    | some a => decide (effectiveAssignee i ≠ a)
    | none => false) &&
  !(match issue_key with
    | some key => decide (i.key ≠ key) && decide (parent ≠ key)
    | none => false)

/-- Membership predicate characterising the group stored under parent key
`p`: a subtask whose parent key is `p` and which passes the filters. -/
def groupPred (assignee issue_key : Option String) (p : String)
    (i : Issue) : Bool :=
  isSubtaskFlag i &&
    (match i.parent_key with
     | some q => decide (q = p)
     | none => false) &&
    subtaskKept assignee issue_key p i

/-- Appending a batch of retained subtasks to an optional existing group,
mirroring the `get_mut`/`insert` split: no entry is created for an empty
batch. -/
def optAppend (o : Option (List Issue)) (l : List Issue) :
    Option (List Issue) :=
  match o with
  | some g => some (g ++ l)
  | none => if l = [] then none else some l

/-- The display-rollup arm of the `flatten!` macro (macros.rs lines 2-7):
if the issue's key has an entry in the subtask map, map the extractor over
the group and join with newline; otherwise apply the extractor to the issue
itself. -/
def flatten_display (subtasks : SMap) (issue : Issue)
    (extractor : Issue → String) : String :=
  match smapGet subtasks issue.key with
  | some v => String.intercalate "\n" (v.map extractor)
  | none => extractor issue

/-- Per-assignee accumulator entry (`users.rs` struct `User`); the `f64`
accumulators are embedded as `Nat` (see the header note). -/
structure User where
  issues : Nat
  estimate : Nat
  remaining : Nat
  actual : Nat
deriving DecidableEq

/-- Embedding of `User::new()`, which is `Default::default()`: all fields zero. -/
def User.new : User :=
  { issues := 0, estimate := 0, remaining := 0, actual := 0 }

/-- The per-assignee accumulator map `Users(BTreeMap<String, User>)`,
embedded as an association list with unique keys (only `entry` lookups are
used by the properties considered here). -/
abbrev Users := List (String × User)

/-- Embedding of `BTreeMap::get` on the accumulator map. -/
def usersGet : Users → String → Option User
  | [], _ => none
  | (k, u) :: rest, a => if k = a then some u else usersGet rest a

/-- Embedding of `self.0.entry(assignee).or_insert(User::new())` followed by a mutation of
the resulting entry. -/
def usersEntryAdd : Users → String → (User → User) → Users
  | [], a, f => [(a, f User.new)]
  | (k, u) :: rest, a, f =>
    if k = a then (k, f u) :: rest else (k, u) :: usersEntryAdd rest a f

/-- Embedding of `Users::original_estimate_seconds` (users.rs lines 42-53): when a value
is present, bump the assignee's issue count and add to the estimate total;
always pass the value through. -/
def original_estimate_seconds (us : Users) (assignee : String)
    (estimate : Option Nat) : Users × Option Nat :=
  match estimate with
  | some e =>
    (usersEntryAdd us assignee
      (fun u => { u with issues := u.issues + 1, estimate := u.estimate + e }),
     some e)
  | none => (us, none)

/-- Embedding of `Users::remaining_estimate_seconds` (users.rs lines 55-65). -/
def remaining_estimate_seconds (us : Users) (assignee : String)
    (remaining : Option Nat) : Users × Option Nat :=
  match remaining with
  | some r =>
    (usersEntryAdd us assignee (fun u => { u with remaining := u.remaining + r }),
     some r)
  | none => (us, none)

/-- Embedding of `Users::time_spent_seconds` (users.rs lines 67-73). -/
def time_spent_seconds (us : Users) (assignee : String)
    (actual : Option Nat) : Users × Option Nat :=
  match actual with
  | some a =>
    (usersEntryAdd us assignee (fun u => { u with actual := u.actual + a }),
     some a)
  | none => (us, none)

/-- The three time-tracking fields the aggregation arm of `flatten!` can be
instantiated with (`$field` ∈ `original_estimate_seconds`,
`remaining_estimate_seconds`, `time_spent_seconds`). -/
inductive TTField
  | estimate
  | remaining
  | spent
deriving DecidableEq

/-- Field projection `v.$field` on a time-tracking record. -/
def ttGet (f : TTField) (tt : TimeTracking) : Option Nat :=
  match f with
  | .estimate => tt.original_estimate_seconds
  | .remaining => tt.remaining_estimate_seconds
  | .spent => tt.time_spent_seconds

/-- The spec's uniform `record_seconds(accumulator, assignee, field, value)`
contract, dispatching to the three `Users` methods of users.rs. -/
def record_seconds (us : Users) (assignee : String) (f : TTField)
    (v : Option Nat) : Users × Option Nat :=
  match f with
  | .estimate => original_estimate_seconds us assignee v
  | .remaining => remaining_estimate_seconds us assignee v
  | .spent => time_spent_seconds us assignee v

/-- An issue's own value for a field: `issue.timetracking()
.and_then(|v| .. v.$field ..)` collapses to the field when time tracking is
present and to `None` otherwise. -/
def issueField (i : Issue) (f : TTField) : Option Nat :=
  match i.timetracking with
  | some tt => ttGet f tt
  | none => none

/-- One element of the `v.iter().map(..).sum()` pass in the aggregation arm
of `flatten!` (macros.rs lines 12-22): record the subtask's field value under
its effective assignee inside the `and_then` (so only when the time-tracking
record is present) and add the pass-through result, 0 when absent, to the
running sum. -/
def aggregateStep (f : TTField) (st : Users × Nat) (sub : Issue) :
    Users × Nat :=
  let r :=
    match sub.timetracking with
    | some tt => record_seconds st.1 (effectiveAssignee sub) f (ttGet f tt)
    | none => (st.1, none)
  (r.1, st.2 + r.2.getD 0)

/-- The aggregation arm of the `flatten!` macro (macros.rs lines 8-34): if
the issue's key has an entry in the subtask map, fold `aggregateStep` over
the group; otherwise record the issue's own field value under its own
effective assignee, substituting 0 when absent. -/
def flatten_aggregate (subtasks : SMap) (issue : Issue) (us : Users)
    (f : TTField) : Users × Nat :=
  match smapGet subtasks issue.key with
  | some v => v.foldl (aggregateStep f) (us, 0)
  | none =>
    let r :=
      match issue.timetracking with
      | some tt => record_seconds us (effectiveAssignee issue) f (ttGet f tt)
      | none => (us, none)
    (r.1, r.2.getD 0)

/-- Sequentially recording a list of subtasks' field values, each under its
own effective assignee: the accumulator-state component of the fold in the
aggregation arm of `flatten!`. -/
def recordAll (us : Users) (f : TTField) : List Issue → Users
  | [] => us
  | s :: rest => recordAll (record_seconds us (effectiveAssignee s) f (issueField s f)).1 f rest

/-- The assignee-filter `continue` condition of the issue-listing loop
(client.rs lines 189-209): skip when the issue's own effective assignee
differs from the filter and no subtask in its group matches it. -/
def rowSkipAssignee (subtasks : SMap) (a : String) (issue : Issue) : Bool :=
  decide (effectiveAssignee issue ≠ a) &&
  ((smapGet subtasks issue.key).bind
    (fun v => v.find? (fun s => decide (effectiveAssignee s = a)))).isNone

/-- The issue-key-filter `continue` condition of the issue-listing loop
(client.rs lines 210-219): skip when the issue's own key differs from the
filter and no subtask in its group carries it. -/
def rowSkipKey (subtasks : SMap) (key : String) (issue : Issue) : Bool :=
  decide (issue.key ≠ key) &&
  ((smapGet subtasks issue.key).bind
    (fun v => v.find? (fun s => decide (s.key = key)))).isNone

/-- Row retention in the issue-listing view: a top-level issue produces a
table row iff neither `continue` fires. -/
def issueRowKept (subtasks : SMap) (assignee issue_key : Option String)
    (issue : Issue) : Bool :=
  !(match assignee with
    | some a => rowSkipAssignee subtasks a issue
    | none => false) &&
  !(match issue_key with
    | some key => rowSkipKey subtasks key issue
    | none => false)

/-- The sequence of top-level issues that produce table rows in
`Client::issues` (client.rs lines 188-260), keyed by the two filters. -/
def issuesRows (subtasks : SMap) (assignee issue_key : Option String)
    (tops : List Issue) : List Issue :=
  tops.filter (issueRowKept subtasks assignee issue_key)

/-- The `format!("{:.width$}", input)` string-precision truncation: keep at
most `w` characters. -/
def truncatePrec (input : String) (w : Nat) : String :=
  ⟨input.data.take w⟩

/-- Embedding of `Client::summary` (client.rs lines 405-420).  The `Option Nat` argument
is the already-computed effective column width
`((width / 100.0) * part) as usize`, `none` when the terminal width is
unknown (in which case the input passes through untouched).  The ellipsis
condition `output.len() + 3 < input.len()` compares UTF-8 byte lengths
(`String::len()`), so the ellipsis is appended only when truncation removed
more than the 3 bytes the ellipsis itself occupies. -/
def summary (width : Option Nat) (input : String) : String :=
  match width with
  | none => input
  | some w =>
    let output := truncatePrec input w
    if output.utf8ByteSize + 3 < input.utf8ByteSize then output ++ "..."
    else output

/-- A non-subtask issue type. -/
def storyType : IssueType :=
  { name := "Story", subtask := false }

/-- A subtask issue type. -/
def subType : IssueType :=
  { name := "Sub-task", subtask := true }

/-- Concrete fixture: top-level issue KEY-1 assigned to Alice with a
3600-second original estimate (the spec's end-to-end scenario). -/
def issue1 : Issue :=
  { key := "KEY-1", parent_key := none, issue_type := some storyType,
    assignee := some "Alice", status := some "Open",
    summary := some "Parent issue",
    timetracking := some
      { original_estimate_seconds := some 3600,
        remaining_estimate_seconds := some 1800,
        time_spent_seconds := none } }

/-- Concrete fixture: subtask KEY-2 of KEY-1 assigned to Bob with a
7200-second original estimate. -/
def issue2 : Issue :=
  { key := "KEY-2", parent_key := some "KEY-1", issue_type := some subType,
    assignee := some "Bob", status := some "Open",
    summary := some "Child issue",
    timetracking := some
      { original_estimate_seconds := some 7200,
        remaining_estimate_seconds := none,
        time_spent_seconds := some 600 } }

/-- Concrete fixture: a subtask with no parent key (orphan). -/
def issue3 : Issue :=
  { key := "KEY-3", parent_key := none, issue_type := some subType,
    assignee := none, status := none, summary := none, timetracking := none }

/-- Concrete fixture: an issue with no issue-type metadata but a parent
key. -/
def issue4 : Issue :=
  { key := "KEY-4", parent_key := some "KEY-1", issue_type := none,
    assignee := none, status := none, summary := none, timetracking := none }

/-- Status-column extractor of the issue-listing view:
`|v: &Issue| v.status().map(|v| v.name).unwrap_or("n/a".to_owned())`. -/
def statusExtractor : Issue → String :=
  fun v => v.status.getD "n/a"

example : subtasks [issue1, issue2] none none = ([issue1], [("KEY-1", [issue2])]) := by decide
example : subtasks [issue3] none none = ([], []) := by decide
example : subtasks [issue4] none none = ([issue4], []) := by decide
example : subtasks [issue1, issue2] (some "Carol") none = ([issue1], []) := by decide
example : subtasks [issue1, issue2] none (some "KEY-1") = ([issue1], [("KEY-1", [issue2])]) := by decide
example : flatten_display [("KEY-1", [issue2])] issue1 statusExtractor = "Open" := by decide
example : flatten_aggregate [("KEY-1", [issue2])] issue1 [] .estimate =
    ([("Bob", { issues := 1, estimate := 7200, remaining := 0, actual := 0 })], 7200) := by decide
example : flatten_aggregate [] issue1 [] .estimate =
    ([("Alice", { issues := 1, estimate := 3600, remaining := 0, actual := 0 })], 3600) := by decide
example : issuesRows [("KEY-1", [issue2])] (some "Bob") none [issue1] = [issue1] := by decide
example : issuesRows [] (some "Bob") none [issue1] = [] := by decide
example : summary none "abcdefghijklmnop" = "abcdefghijklmnop" := by decide
example : summary (some 10) "abcdefghijk" = "abcdefghij" := by decide
example : summary (some 10) "abcdefghijklm" = "abcdefghij" := by decide
example : summary (some 10) "abcdefghijklmn" = "abcdefghij..." := by decide
example : summary (some 10) "abcdefghij" = "abcdefghij" := by decide
example : summary (some 10) "abcdefghij🎉" = "abcdefghij..." := by decide

lemma optAppend_nil (o : Option (List Issue)) : optAppend o [] = o := by
  cases o <;> simp [optAppend]

lemma optAppend_single (o : Option (List Issue)) (x : Issue) :
    optAppend o [x] = some (o.getD [] ++ [x]) := by
  cases o <;> simp [optAppend]

lemma optAppend_append (o : Option (List Issue)) (l₁ l₂ : List Issue) :
    optAppend (optAppend o l₁) l₂ = optAppend o (l₁ ++ l₂) := by
  cases o with
  | some g => simp [optAppend]
  | none =>
    by_cases h₁ : l₁ = []
    · simp [optAppend, h₁]
    · simp [optAppend, h₁, List.append_eq_nil]

lemma smapGet_smapPush (m : SMap) (k : String) (i : Issue) (p : String) :
    smapGet (smapPush m k i) p =
      if k = p then some ((smapGet m p).getD [] ++ [i]) else smapGet m p := by
  induction m with
  | nil =>
    by_cases h : k = p <;> simp [smapPush, smapGet, h]
  | cons e rest ih =>
    obtain ⟨k', v⟩ := e
    by_cases hk : k' = k
    · subst hk
      by_cases hp : k' = p <;> simp [smapPush, smapGet, hp]
    · by_cases hp : k' = p
      · subst hp
        have : ¬ k = k' := fun h => hk h.symm
        simp [smapPush, smapGet, hk, this]
      · simp [smapPush, smapGet, hk, hp, ih]

lemma subtasksStep_fst (a k : Option String) (st : List Issue × SMap)
    (x : Issue) :
    (subtasksStep a k st x).1 =
      if isSubtaskFlag x then st.1 else st.1 ++ [x] := by
  unfold subtasksStep
  cases h : isSubtaskFlag x
  · simp
  · simp only [if_pos rfl]
    cases hp : x.parent_key
    · rfl
    · dsimp only
      split
      · rfl
      · split <;> rfl

lemma subtasksStep_get (a k : Option String) (st : List Issue × SMap)
    (x : Issue) (p : String) :
    smapGet (subtasksStep a k st x).2 p =
      optAppend (smapGet st.2 p)
        (if groupPred a k p x then [x] else []) := by
  unfold subtasksStep
  cases hs : isSubtaskFlag x
  · simp [groupPred, hs, optAppend_nil]
  · cases hp : x.parent_key with
    | none => simp [groupPred, hp, optAppend_nil]
    | some q =>
      dsimp only
      cases hA : (match a with
          | some a' => decide (effectiveAssignee x ≠ a')
          | none => false) with
      | true =>
        rw [if_pos rfl]
        have hkept : subtaskKept a k p x = false := by
          unfold subtaskKept
          rw [hA]
          rfl
        simp [groupPred, hkept, optAppend_nil]
      | false =>
        rw [if_neg Bool.false_ne_true]
        cases hK : (match k with
            | some key => decide (x.key ≠ key) && decide (q ≠ key)
            | none => false) with
        | true =>
          rw [if_pos rfl]
          by_cases hq : q = p
          · subst hq
            have hkept : subtaskKept a k q x = false := by
              unfold subtaskKept
              rw [hK]
              simp
            simp [groupPred, hkept, optAppend_nil]
          · simp [groupPred, hp, hq, optAppend_nil]
        | false =>
          rw [if_neg Bool.false_ne_true]
          by_cases hq : q = p
          · subst hq
            have hkept : subtaskKept a k q x = true := by
              unfold subtaskKept
              rw [hA, hK]
              rfl
            simp [groupPred, hs, hp, hkept, smapGet_smapPush,
              optAppend_single]
          · simp [groupPred, hp, hq, optAppend_nil, smapGet_smapPush]

lemma subtasks_foldl_fst (a k : Option String) :
    ∀ (issues : List Issue) (acc : List Issue × SMap),
      (issues.foldl (subtasksStep a k) acc).1 =
        acc.1 ++ issues.filter (fun i => !(isSubtaskFlag i)) := by
  intro issues
  induction issues with
  | nil => intro acc; simp
  | cons x xs ih =>
    intro acc
    rw [List.foldl_cons, ih, subtasksStep_fst]
    cases h : isSubtaskFlag x <;> simp [List.filter_cons, h]

lemma subtasks_foldl_get (a k : Option String) (p : String) :
    ∀ (issues : List Issue) (acc : List Issue × SMap),
      smapGet (issues.foldl (subtasksStep a k) acc).2 p =
        optAppend (smapGet acc.2 p) (issues.filter (groupPred a k p)) := by
  intro issues
  induction issues with
  | nil => intro acc; simp [optAppend_nil]
  | cons x xs ih =>
    intro acc
    rw [List.foldl_cons, ih, subtasksStep_get, optAppend_append]
    cases h : groupPred a k p x <;> simp [List.filter_cons, h]

lemma subtasks_fst_eq (issues : List Issue) (a k : Option String) :
    (subtasks issues a k).1 = issues.filter (fun i => !(isSubtaskFlag i)) := by
  rw [subtasks, subtasks_foldl_fst]
  rfl

lemma subtasks_get_eq (issues : List Issue) (a k : Option String)
    (p : String) :
    smapGet (subtasks issues a k).2 p =
      if issues.filter (groupPred a k p) = [] then none
      else some (issues.filter (groupPred a k p)) := by
  rw [subtasks, subtasks_foldl_get]
  rfl

lemma subtaskKept_iff (a k : Option String) (p : String) (i : Issue) :
    subtaskKept a k p i = true ↔
      ((a = none ∨ a = some (effectiveAssignee i)) ∧
       (k = none ∨ k = some i.key ∨ k = some p)) := by
  cases a with
  | none =>
    cases k with
    | none => simp [subtaskKept]
    | some key =>
      simp only [subtaskKept]
      simp
      exact or_congr eq_comm eq_comm
  | some a' =>
    cases k with
    | none =>
      simp only [subtaskKept]
      simp
      exact eq_comm
    | some key =>
      simp only [subtaskKept]
      simp
      exact and_congr eq_comm (or_congr eq_comm eq_comm)

lemma groupPred_eq_true_iff (a k : Option String) (p : String) (i : Issue) :
    groupPred a k p i = true ↔
      isSubtaskFlag i = true ∧ i.parent_key = some p ∧
        subtaskKept a k p i = true := by
  cases hp : i.parent_key <;> simp [groupPred, hp, and_assoc]

/-- C1: partition appends every non-subtask issue to the top-level output
unconditionally and in input order, for every choice of filters, and within
each parent group the retained subtasks appear in input order (each group is
the input subsequence of retained subtasks of that parent). -/
theorem c1_partition_top_level_and_group_order (issues : List Issue)
    (a k : Option String) :
    (subtasks issues a k).1 = issues.filter (fun i => !(isSubtaskFlag i)) ∧
    ∀ p g, smapGet (subtasks issues a k).2 p = some g →
      g = issues.filter (groupPred a k p) := by
  refine ⟨subtasks_fst_eq issues a k, ?_⟩
  intro p g hg
  rw [subtasks_get_eq] at hg
  split at hg
  · exact Option.noConfusion hg
  · exact (Option.some.inj hg).symm

/-- Witness for C1 at the concrete two-issue scenario. -/
theorem c1_witness :
    (subtasks [issue1, issue2] none none).1 =
      List.filter (fun i => !(isSubtaskFlag i)) [issue1, issue2] ∧
    [issue2] = List.filter (groupPred none none "KEY-1") [issue1, issue2] :=
  ⟨(c1_partition_top_level_and_group_order [issue1, issue2] none none).1,
   (c1_partition_top_level_and_group_order [issue1, issue2] none none).2
     "KEY-1" [issue2] (by decide)⟩

/-- C2: a subtask with a present parent key lands in its parent's group iff
the assignee filter (if set) equals its effective assignee and the issue-key
filter (if set) equals its own key or its parent key; a subtask failing
either condition appears nowhere in the partition output. -/
theorem c2_subtask_filter_membership (issues : List Issue)
    (a k : Option String) (i : Issue) (p : String) (hmem : i ∈ issues)
    (hsub : isSubtaskFlag i = true) (hpar : i.parent_key = some p) :
    ((∃ g, smapGet (subtasks issues a k).2 p = some g ∧ i ∈ g) ↔
      ((a = none ∨ a = some (effectiveAssignee i)) ∧
       (k = none ∨ k = some i.key ∨ k = some p))) ∧
    (¬((a = none ∨ a = some (effectiveAssignee i)) ∧
       (k = none ∨ k = some i.key ∨ k = some p)) →
      i ∉ (subtasks issues a k).1 ∧
      ∀ q g, smapGet (subtasks issues a k).2 q = some g → i ∉ g) := by
  have hkept := subtaskKept_iff a k p i
  constructor
  · constructor
    · rintro ⟨g, hg, hig⟩
      rw [subtasks_get_eq] at hg
      split at hg
      · exact Option.noConfusion hg
      · rw [← Option.some.inj hg] at hig
        have hpred := (List.mem_filter.mp hig).2
        rw [groupPred_eq_true_iff] at hpred
        exact hkept.mp hpred.2.2
    · intro hcond
      have hp : groupPred a k p i = true := by
        rw [groupPred_eq_true_iff]
        exact ⟨hsub, hpar, hkept.mpr hcond⟩
      have hif : i ∈ issues.filter (groupPred a k p) :=
        List.mem_filter.mpr ⟨hmem, hp⟩
      refine ⟨issues.filter (groupPred a k p), ?_, hif⟩
      rw [subtasks_get_eq, if_neg (List.ne_nil_of_mem hif)]
  · intro hcond
    constructor
    · rw [subtasks_fst_eq]
      intro hmem'
      have := (List.mem_filter.mp hmem').2
      simp [hsub] at this
    · intro q g hg hig
      rw [subtasks_get_eq] at hg
      split at hg
      · exact Option.noConfusion hg
      · rw [← Option.some.inj hg] at hig
        have hpred := (List.mem_filter.mp hig).2
        rw [groupPred_eq_true_iff] at hpred
        have hq : q = p := by
          have h2 := hpred.2.1
          rw [hpar] at h2
          exact (Option.some.inj h2).symm
        subst hq
        exact hcond (hkept.mp hpred.2.2)

/-- Witness for C2 at the concrete two-issue scenario with no filters. -/
theorem c2_witness :
    smapGet (subtasks [issue1, issue2] none none).2 "KEY-1" =
      some [issue2] ∧
    issue2 ∈ [issue2] := by
  obtain ⟨g, hg, hig⟩ :=
    (c2_subtask_filter_membership [issue1, issue2] none none issue2 "KEY-1"
      (by decide) (by decide) rfl).1.mpr ⟨Or.inl rfl, Or.inl rfl⟩
  have he : smapGet (subtasks [issue1, issue2] none none).2 "KEY-1" =
      some [issue2] := by decide
  have hge : g = [issue2] := Option.some.inj (hg.symm.trans he)
  exact ⟨he, hge ▸ hig⟩

/-- C3: a subtask with no parent key is dropped entirely: it appears in
neither the top-level output nor any group of the subtask map, for every
choice of filters. -/
theorem c3_orphan_subtask_dropped (issues : List Issue) (a k : Option String)
    (i : Issue) (hsub : isSubtaskFlag i = true) (hpar : i.parent_key = none) :
    i ∉ (subtasks issues a k).1 ∧
    ∀ p g, smapGet (subtasks issues a k).2 p = some g → i ∉ g := by
  constructor
  · rw [subtasks_fst_eq]
    intro hmem
    have := (List.mem_filter.mp hmem).2
    simp [hsub] at this
  · intro p g hg hig
    rw [subtasks_get_eq] at hg
    split at hg
    · exact Option.noConfusion hg
    · rw [← Option.some.inj hg] at hig
      have hpred := (List.mem_filter.mp hig).2
      rw [groupPred_eq_true_iff] at hpred
      have h2 := hpred.2.1
      rw [hpar] at h2
      exact Option.noConfusion h2

/-- Witness for C3 at the concrete orphan subtask. -/
theorem c3_witness :
    isSubtaskFlag issue3 = true ∧ issue3 ∉ (subtasks [issue3] none none).1 :=
  ⟨by decide,
   (c3_orphan_subtask_dropped [issue3] none none issue3 (by decide) rfl).1⟩

/-- C4: every issue stored in a value list of the subtask map is flagged as a
subtask and carries a parent key equal to the map key it is stored under. -/
theorem c4_subtask_map_invariant (issues : List Issue) (a k : Option String)
    (p : String) (g : List Issue)
    (h : smapGet (subtasks issues a k).2 p = some g) :
    ∀ i ∈ g, isSubtaskFlag i = true ∧ i.parent_key = some p := by
  intro i hi
  rw [subtasks_get_eq] at h
  split at h
  · exact Option.noConfusion h
  · rw [← Option.some.inj h] at hi
    have hpred := (List.mem_filter.mp hi).2
    rw [groupPred_eq_true_iff] at hpred
    exact ⟨hpred.1, hpred.2.1⟩

/-- Witness for C4 at the concrete two-issue scenario. -/
theorem c4_witness :
    isSubtaskFlag issue2 = true ∧ issue2.parent_key = some "KEY-1" :=
  c4_subtask_map_invariant [issue1, issue2] none none "KEY-1" [issue2]
    (by decide) issue2 (by decide)

/-- C10: an issue without issue-type metadata is classified as top-level: it
is appended to the top-level output and never placed in any subtask group,
even when it carries a parent key. -/
theorem c10_missing_issue_type_top_level (issues : List Issue)
    (a k : Option String) (i : Issue) (hmem : i ∈ issues)
    (hty : i.issue_type = none) :
    i ∈ (subtasks issues a k).1 ∧
    ∀ p g, smapGet (subtasks issues a k).2 p = some g → i ∉ g := by
  have hflag : isSubtaskFlag i = false := by simp [isSubtaskFlag, hty]
  constructor
  · rw [subtasks_fst_eq]
    exact List.mem_filter.mpr ⟨hmem, by simp [hflag]⟩
  · intro p g hg hig
    rw [subtasks_get_eq] at hg
    split at hg
    · exact Option.noConfusion hg
    · rw [← Option.some.inj hg] at hig
      have hpred := (List.mem_filter.mp hig).2
      rw [groupPred_eq_true_iff, hflag] at hpred
      exact Bool.noConfusion hpred.1

/-- Witness for C10 at the concrete typeless issue carrying a parent key. -/
theorem c10_witness :
    issue4.parent_key = some "KEY-1" ∧
    issue4 ∈ (subtasks [issue4] none none).1 :=
  ⟨rfl,
   (c10_missing_issue_type_top_level [issue4] none none issue4 (by decide)
     rfl).1⟩

/-- C5: the display rollup returns the extractor output of the issue itself
when its key has no entry in the subtask map, and the newline-join of the
extractor outputs over the group, in group order, when it has one. -/
theorem c5_flatten_display (m : SMap) (i : Issue) (f : Issue → String) :
    (smapGet m i.key = none → flatten_display m i f = f i) ∧
    ∀ v, smapGet m i.key = some v →
      flatten_display m i f = String.intercalate "\n" (v.map f) := by
  constructor
  · intro h
    unfold flatten_display
    rw [h]
  · intro v h
    unfold flatten_display
    rw [h]

/-- Witness for C5 with the status-column extractor at the concrete
scenario. -/
theorem c5_witness :
    flatten_display [("KEY-1", [issue2])] issue1 statusExtractor =
      String.intercalate "\n" ([issue2].map statusExtractor) :=
  (c5_flatten_display [("KEY-1", [issue2])] issue1 statusExtractor).2
    [issue2] (by decide)

lemma usersGet_usersEntryAdd_self (us : Users) (a : String)
    (f : User → User) :
    usersGet (usersEntryAdd us a f) a =
      some (f ((usersGet us a).getD User.new)) := by
  induction us with
  | nil => simp [usersEntryAdd, usersGet]
  | cons e rest ih =>
    obtain ⟨k, u⟩ := e
    by_cases hk : k = a
    · subst hk
      simp [usersEntryAdd, usersGet]
    · simp [usersEntryAdd, usersGet, hk, ih]

lemma usersGet_usersEntryAdd_other (us : Users) (a b : String)
    (f : User → User) (hb : b ≠ a) :
    usersGet (usersEntryAdd us a f) b = usersGet us b := by
  have hab : a ≠ b := fun h => hb h.symm
  induction us with
  | nil => simp [usersEntryAdd, usersGet, hab]
  | cons e rest ih =>
    obtain ⟨k, u⟩ := e
    by_cases hk : k = a
    · subst hk
      simp [usersEntryAdd, usersGet, hab]
    · by_cases hkb : k = b <;> simp [usersEntryAdd, usersGet, hk, hkb, ih, hb]

lemma record_seconds_none (us : Users) (a : String) (f : TTField) :
    record_seconds us a f none = (us, none) := by
  cases f <;> rfl

lemma record_seconds_snd (us : Users) (a : String) (f : TTField)
    (v : Option Nat) :
    (record_seconds us a f v).2 = v := by
  cases f <;> cases v <;> rfl

/-- C6: recording an absent value is a complete no-op returning `none`;
recording `some v` adds `v` to exactly the named assignee's total for the
named field, bumps that assignee's issue count by 1 exactly for the estimate
field, leaves the entry's other fields and every other assignee's entry
unchanged, and passes the value through. -/
theorem c6_record_seconds (us : Users) (a : String) (f : TTField) :
    record_seconds us a f none = (us, none) ∧
    ∀ v : Nat,
      (record_seconds us a f (some v)).2 = some v ∧
      usersGet (record_seconds us a f (some v)).1 a =
        some
          { issues := ((usersGet us a).getD User.new).issues +
              (if f = .estimate then 1 else 0),
            estimate := ((usersGet us a).getD User.new).estimate +
              (if f = .estimate then v else 0),
            remaining := ((usersGet us a).getD User.new).remaining +
              (if f = .remaining then v else 0),
            actual := ((usersGet us a).getD User.new).actual +
              (if f = .spent then v else 0) } ∧
      ∀ b, b ≠ a →
        usersGet (record_seconds us a f (some v)).1 b = usersGet us b := by
  refine ⟨record_seconds_none us a f, ?_⟩
  intro v
  refine ⟨record_seconds_snd us a f (some v), ?_, ?_⟩
  · cases f <;>
      simp [record_seconds, original_estimate_seconds,
        remaining_estimate_seconds, time_spent_seconds,
        usersGet_usersEntryAdd_self]
  · intro b hb
    cases f <;>
      simp [record_seconds, original_estimate_seconds,
        remaining_estimate_seconds, time_spent_seconds,
        usersGet_usersEntryAdd_other _ _ _ _ hb]

/-- Witness for C6 recording Bob's 7200-second estimate into an empty
accumulator, with Alice's (absent) entry untouched. -/
theorem c6_witness :
    record_seconds [] "Bob" .estimate none = ([], none) ∧
    (record_seconds [] "Bob" .estimate (some 7200)).2 = some 7200 ∧
    usersGet (record_seconds [] "Bob" .estimate (some 7200)).1 "Bob" =
      some
        { issues := ((usersGet [] "Bob").getD User.new).issues +
            (if TTField.estimate = .estimate then 1 else 0),
          estimate := ((usersGet [] "Bob").getD User.new).estimate +
            (if TTField.estimate = .estimate then 7200 else 0),
          remaining := ((usersGet [] "Bob").getD User.new).remaining +
            (if TTField.estimate = .remaining then 7200 else 0),
          actual := ((usersGet [] "Bob").getD User.new).actual +
            (if TTField.estimate = .spent then 7200 else 0) } ∧
    usersGet (record_seconds [] "Bob" .estimate (some 7200)).1 "Alice" =
      usersGet [] "Alice" :=
  ⟨(c6_record_seconds [] "Bob" .estimate).1,
   ((c6_record_seconds [] "Bob" .estimate).2 7200).1,
   ((c6_record_seconds [] "Bob" .estimate).2 7200).2.1,
   ((c6_record_seconds [] "Bob" .estimate).2 7200).2.2 "Alice" (by decide)⟩

lemma aggregate_foldl (f : TTField) (v : List Issue) :
    ∀ (us : Users) (n : Nat),
      v.foldl (aggregateStep f) (us, n) =
        (recordAll us f v,
         n + (v.map (fun s => (issueField s f).getD 0)).sum) := by
  induction v with
  | nil =>
    intro us n
    simp [recordAll]
  | cons s rest ih =>
    intro us n
    rw [List.foldl_cons]
    cases hts : s.timetracking with
    | none =>
      have hstep : aggregateStep f (us, n) s = (us, n + 0) := by
        simp [aggregateStep, hts]
      rw [hstep, ih]
      simp [recordAll, issueField, hts, record_seconds_none, Nat.add_assoc]
    | some tt =>
      have hstep : aggregateStep f (us, n) s =
          ((record_seconds us (effectiveAssignee s) f (ttGet f tt)).1,
           n + (ttGet f tt).getD 0) := by
        simp [aggregateStep, hts, record_seconds_snd]
      rw [hstep, ih]
      simp [recordAll, issueField, hts, Nat.add_assoc]

/-- C7: when the issue's key has a group in the subtask map, the aggregation
arm records exactly the subtasks' field values, each under the subtask's own
effective assignee, and returns the sum of the present values with 0 for
absent ones — the parent issue's own fields and assignee contribute nothing;
with no group, it is a single `record_seconds` of the issue's own field
value under its own effective assignee, returning that value or 0. -/
theorem c7_aggregate_field (m : SMap) (i : Issue) (us : Users)
    (f : TTField) :
    (∀ v, smapGet m i.key = some v →
      flatten_aggregate m i us f =
        (recordAll us f v,
         (v.map (fun s => (issueField s f).getD 0)).sum)) ∧
    (smapGet m i.key = none →
      flatten_aggregate m i us f =
        ((record_seconds us (effectiveAssignee i) f (issueField i f)).1,
         (issueField i f).getD 0)) := by
  constructor
  · intro v h
    unfold flatten_aggregate
    rw [h]
    dsimp only
    rw [aggregate_foldl]
    simp
  · intro h
    unfold flatten_aggregate
    rw [h]
    cases hts : i.timetracking with
    | none => simp [issueField, hts, record_seconds_none]
    | some tt => simp [issueField, hts, record_seconds_snd]

/-- Witness for C7 at the spec's end-to-end scenario: KEY-1 with subtask
KEY-2 (Bob, 7200s estimate) aggregates only the subtask contribution under
Bob; KEY-1 alone records its own 3600s under Alice. -/
theorem c7_witness :
    flatten_aggregate [("KEY-1", [issue2])] issue1 [] .estimate =
      ([("Bob", { issues := 1, estimate := 7200, remaining := 0,
                  actual := 0 })], 7200) ∧
    flatten_aggregate [] issue1 [] .estimate =
      ([("Alice", { issues := 1, estimate := 3600, remaining := 0,
                    actual := 0 })], 3600) :=
  ⟨((c7_aggregate_field [("KEY-1", [issue2])] issue1 [] .estimate).1
      [issue2] (by decide)).trans (by decide),
   ((c7_aggregate_field [] issue1 [] .estimate).2 rfl).trans (by decide)⟩

lemma bind_find?_isNone_false_iff (o : Option (List Issue))
    (p : Issue → Bool) :
    (o.bind (fun v => v.find? p)).isNone = false ↔
      ∃ g, o = some g ∧ ∃ s ∈ g, p s = true := by
  cases o with
  | none => simp
  | some g =>
    have hred : (some g).bind (fun v => v.find? p) = g.find? p := rfl
    rw [hred]
    constructor
    · intro h
      refine ⟨g, rfl, ?_⟩
      cases hf : g.find? p with
      | none =>
        rw [hf] at h
        exact absurd h (by simp)
      | some s =>
        exact ⟨s, List.mem_of_find?_eq_some hf, List.find?_some hf⟩
    · rintro ⟨g', hg', s, hs, hps⟩
      cases hg'
      cases hf : g.find? p with
      | none =>
        rw [List.find?_eq_none] at hf
        exact absurd hps (hf s hs)
      | some t => simp

lemma issueRowKept_assignee_iff (m : SMap) (a : String) (i : Issue) :
    issueRowKept m (some a) none i = true ↔
      (effectiveAssignee i = a ∨
       ∃ g, smapGet m i.key = some g ∧
         ∃ s ∈ g, effectiveAssignee s = a) := by
  by_cases he : effectiveAssignee i = a
  · simp [issueRowKept, rowSkipAssignee, he]
  · rw [issueRowKept, rowSkipAssignee]
    simp only [he]
    rw [show (decide (effectiveAssignee i ≠ a)) = true by simp [he]]
    simp only [Bool.true_and, Bool.not_false, Bool.and_true,
      Bool.not_eq_true']
    rw [bind_find?_isNone_false_iff]
    simp [he]

/-- C8: with an assignee filter set (and no issue-key filter), a top-level
issue produces a table row iff its own effective assignee equals the filter
or its group in the subtask map contains a subtask whose effective assignee
equals the filter. -/
theorem c8_assignee_row_filter (m : SMap) (a : String) (tops : List Issue)
    (i : Issue) (hmem : i ∈ tops) :
    i ∈ issuesRows m (some a) none tops ↔
      (effectiveAssignee i = a ∨
       ∃ g, smapGet m i.key = some g ∧
         ∃ s ∈ g, effectiveAssignee s = a) := by
  rw [issuesRows, List.mem_filter, issueRowKept_assignee_iff]
  simp [hmem]

/-- Witness for C8: KEY-1 (Alice) is retained under filter "Bob" because its
subtask KEY-2 is Bob's. -/
theorem c8_witness :
    issue1 ∈ issuesRows [("KEY-1", [issue2])] (some "Bob") none [issue1] :=
  (c8_assignee_row_filter [("KEY-1", [issue2])] "Bob" [issue1] issue1
      (by decide)).mpr
    (Or.inr ⟨[issue2], by decide, issue2, by decide, rfl⟩)

lemma truncatePrec_length (s : String) (w : Nat) :
    (truncatePrec s w).length = min w s.length := by
  rw [truncatePrec]
  rw [show (String.mk (s.data.take w)).length = (s.data.take w).length from rfl]
  rw [List.length_take]
  rfl

lemma truncatePrec_of_le (s : String) (w : Nat) (h : s.length ≤ w) :
    truncatePrec s w = s := by
  rw [truncatePrec, List.take_of_length_le h]

/-- C9 counterexample: at effective column width 10, the 11-character ASCII
input is truncated to its bare 10-character prefix with no ellipsis appended
(the code's `output.len() + 3 < input.len()` byte comparison gives
`13 < 11`, false), contradicting the claim's "every input longer than 10
characters yields a 13-character prefix-plus-ellipsis". -/
theorem c9_counterexample :
    ("abcdefghijk" : String).length = 11 ∧
    summary (some 10) "abcdefghijk" = "abcdefghij" ∧
    ("abcdefghij" : String).length = 10 :=
  ⟨by decide, by decide, by decide⟩

/-- C9 amended: with no terminal width every input passes through unchanged;
at effective column width 10, inputs of at most 10 characters pass through
unchanged with no ellipsis, and any longer input is truncated to its
10-character prefix, with the 3-character ellipsis appended (13 characters
total) exactly when the truncation removed more than 3 UTF-8 bytes, i.e.
when the prefix's byte length plus 3 is less than the input's byte length,
and with no ellipsis (10 characters total) otherwise. -/
theorem c9_truncation_amended (width : Option Nat) (input : String) :
    (width = none → summary width input = input) ∧
    (width = some 10 →
      (input.length ≤ 10 → summary (some 10) input = input) ∧
      (10 < input.length →
        ((truncatePrec input 10).utf8ByteSize + 3 < input.utf8ByteSize →
          summary (some 10) input = truncatePrec input 10 ++ "..." ∧
          (summary (some 10) input).length = 13) ∧
        (¬ (truncatePrec input 10).utf8ByteSize + 3 < input.utf8ByteSize →
          summary (some 10) input = truncatePrec input 10 ∧
          (summary (some 10) input).length = 10))) := by
  constructor
  · rintro rfl
    rfl
  · rintro rfl
    refine ⟨?_, ?_⟩
    · intro hle
      show (if (truncatePrec input 10).utf8ByteSize + 3 < input.utf8ByteSize
            then truncatePrec input 10 ++ "..."
            else truncatePrec input 10) = input
      rw [truncatePrec_of_le input 10 hle]
      rw [if_neg (by omega)]
    · intro h10
      have hlen : (truncatePrec input 10).length = 10 := by
        rw [truncatePrec_length]
        omega
      constructor
      · intro hb
        show (if (truncatePrec input 10).utf8ByteSize + 3 <
                  input.utf8ByteSize
              then truncatePrec input 10 ++ "..."
              else truncatePrec input 10) =
                truncatePrec input 10 ++ "..." ∧
            (if (truncatePrec input 10).utf8ByteSize + 3 <
                  input.utf8ByteSize
              then truncatePrec input 10 ++ "..."
              else truncatePrec input 10).length = 13
        rw [if_pos hb]
        refine ⟨rfl, ?_⟩
        rw [String.length_append, hlen]
        rfl
      · intro hb
        show (if (truncatePrec input 10).utf8ByteSize + 3 <
                  input.utf8ByteSize
              then truncatePrec input 10 ++ "..."
              else truncatePrec input 10) = truncatePrec input 10 ∧
            (if (truncatePrec input 10).utf8ByteSize + 3 <
                  input.utf8ByteSize
              then truncatePrec input 10 ++ "..."
              else truncatePrec input 10).length = 10
        rw [if_neg hb]
        exact ⟨rfl, hlen⟩

/-- Witness for C9's amended statement: no-width passthrough, a 10-character
input left alone, a 13-character ASCII input (13 bytes, condition false)
kept as the bare prefix, a 14-character ASCII input (condition true) given
the ellipsis, and an 11-character but 14-byte input whose multibyte final
character makes the byte condition true, so it also gets the ellipsis. -/
theorem c9_witness :
    summary none "abcdefghijklmnop" = "abcdefghijklmnop" ∧
    summary (some 10) "abcdefghij" = "abcdefghij" ∧
    summary (some 10) "abcdefghijklm" = truncatePrec "abcdefghijklm" 10 ∧
    summary (some 10) "abcdefghijklmn" =
      truncatePrec "abcdefghijklmn" 10 ++ "..." ∧
    summary (some 10) "abcdefghij🎉" =
      truncatePrec "abcdefghij🎉" 10 ++ "..." :=
  ⟨(c9_truncation_amended none "abcdefghijklmnop").1 rfl,
   ((c9_truncation_amended (some 10) "abcdefghij").2 rfl).1 (by decide),
   ((((c9_truncation_amended (some 10) "abcdefghijklm").2 rfl).2
      (by decide)).2 (by decide)).1,
   ((((c9_truncation_amended (some 10) "abcdefghijklmn").2 rfl).2
      (by decide)).1 (by decide)).1,
   ((((c9_truncation_amended (some 10) "abcdefghij🎉").2 rfl).2
      (by decide)).1 (by decide)).1⟩

end Jira
